import Mathlib

/-!
Verification of the SkillSync skill-match scoring engine.

This file gives a shallow embedding of the scoring engine found in
`app/ml/matcher.py` (class `AdvancedSkillMatcher`) and of the ranking loop in
`app/routes/match.py` (`find_matches`), and proves properties of that
embedding.

Modelling conventions:
* Skill names and experience labels are `String`; Python `s.lower()` is
  `pyLower`.
* Numeric scores are exact rationals (`ℚ`) or reals (`ℝ`); the Python
  decimal literals 0.3, 0.4, ... are modelled by the exact rationals they
  denote.  Embeddings are `List ℚ`.
* The sentence-transformer backend is an external black box: a `Matcher`
  carries `model : Option (String → Except Unit (List ℚ))` — `none` models a
  backend that failed to load at startup, `Except.error` a backend whose
  `encode` call raises.  The Python builtin `hash` (process-seeded but fixed
  within a process) is the abstract parameter `hashFn`.
* `sklearn.metrics.pairwise.cosine_similarity` on two 1-d vectors is the dot
  product divided by the product of the Euclidean norms, a zero norm being
  replaced by 1 (sklearn `normalize` semantics).
* Python `round(x, n)` and the `:.0%` format round half to even; they are
  modelled exactly over `ℝ`.
* Python `list.sort(key=..., reverse=True)` is a stable descending sort; it
  is modelled by a stable insertion sort `sortDescBy`.
* Python set iteration order is unspecified; where the source enumerates a
  set (`list(overlap)[:3]`), the model fixes the first-occurrence order of
  the requester list.  No property proved here depends on that order.
-/

/-- Python `str.lower()`, modelled character by character on the underlying
character list (`Char.toLower` on each character). -/
def pyLower (s : String) : String :=
  String.mk (s.data.map Char.toLower)

/-- The matcher of `app/ml/matcher.py`.  `model` is the sentence-transformer
backend (`none` when loading failed, as caught in `__init__`); `hashFn` is the
Python builtin `hash` on strings, abstract here. -/
structure Matcher where
  model : Option (String → Except Unit (List ℚ))
  hashFn : String → ℤ

/-- Fallback one-hot style encoding, `_basic_encoding` at matcher.py:77-80:
`np.array([hash(skill) % 100 for skill in skills[:10]])`. -/
def basic_encoding (m : Matcher) (skills : List String) : List ℚ :=
  (skills.take 10).map (fun s => (((m.hashFn s) % 100 : ℤ) : ℚ))

/-- Embedding of a skill list, `encode_skills` at matcher.py:49-75: a zero
vector of dimension 384 for no skills; otherwise the backend applied to the
comma-joined skills, falling back to `basic_encoding` when the backend is
absent or its call raises. -/
def encode_skills (m : Matcher) (skills : List String) : List ℚ :=
  if skills = [] then List.replicate 384 0
  else
    match m.model with
    | none => basic_encoding m skills
    | some enc =>
      match enc (String.intercalate ", " skills) with
      | Except.ok v => v
      | Except.error _ => basic_encoding m skills

/-- Dot product of two rational vectors (`np.dot` on the zipped entries). -/
def dotQ (a b : List ℚ) : ℚ :=
  (List.zipWith (fun x y => x * y) a b).sum

/-- Cosine similarity of two vectors as `sklearn.metrics.pairwise
.cosine_similarity` computes it: dot product over the product of Euclidean
norms, a zero norm being replaced by 1. -/
noncomputable def cosine_similarity (a b : List ℚ) : ℝ :=
  ((dotQ a b : ℚ) : ℝ) /
    ((if dotQ a a = 0 then 1 else Real.sqrt ((dotQ a a : ℚ) : ℝ)) *
     (if dotQ b b = 0 then 1 else Real.sqrt ((dotQ b b : ℚ) : ℝ)))

/-- Pairwise similarity, `compute_semantic_similarity` at matcher.py:82-98:
0.0 on a dimension mismatch, otherwise cosine similarity remapped from
[-1, 1] to [0, 1] by `(sim + 1) / 2`. -/
noncomputable def compute_semantic_similarity (embedding1 embedding2 : List ℚ) : ℝ :=
  if embedding1.length ≠ embedding2.length then 0
  else (cosine_similarity embedding1 embedding2 + 1) / 2

/-- The case-folded skill set `set(s.lower() for s in skills)`. -/
def lowerSet (skills : List String) : Finset String :=
  (skills.map pyLower).toFinset

/-- Complementarity, `compute_skill_complementarity` at matcher.py:100-124:
the fraction of the skills of the target that the user lacks, 0.0 when either
list is empty. -/
def compute_skill_complementarity (user_skills target_skills : List String) : ℚ :=
  if user_skills = [] ∨ target_skills = [] then 0
  else
    let user_set := lowerSet user_skills
    let target_set := lowerSet target_skills
    (((target_set \ user_set).card : ℚ)) / ((target_set.card : ℚ))

/-- Diversity, `compute_skill_diversity` at matcher.py:126-160: 0.0 when a
list is empty or the case-folded sets do not overlap; otherwise a triangular
curve in the overlap ratio, peaking at ratio 0.3. -/
def compute_skill_diversity (user_skills target_skills : List String) : ℚ :=
  if user_skills = [] ∨ target_skills = [] then 0
  else
    let user_set := lowerSet user_skills
    let target_set := lowerSet target_skills
    let overlap := user_set ∩ target_set
    if overlap = ∅ then 0
    else
      let overlap_ratio := ((overlap.card : ℚ)) / (((user_set ∪ target_set).card : ℚ))
      max 0 (1 - |0.3 - overlap_ratio| / 0.7)

/-- The experience table of matcher.py:182-190 as an association list. -/
def experience_map : List (String × ℚ) :=
  [("beginner", 1), ("junior", 2), ("intermediate", 3), ("senior", 4),
   ("expert", 5), ("advanced", 5), ("", 3)]

/-- Rank of an experience label: `experience_map.get(label.lower(), 3)`. -/
def experienceRank (label : String) : ℚ :=
  (experience_map.lookup (pyLower label)).getD 3

/-- Experience compatibility, `compute_experience_match` at
matcher.py:162-230: both labels are ranked, and the rank difference (candidate
minus requester when `role = "mentee"`, reversed otherwise) is bucketed. -/
def compute_experience_match (user_experience target_experience role : String) : ℚ :=
  let user_exp := experienceRank user_experience
  let target_exp := experienceRank target_experience
  if role = "mentee" then
    let diff := target_exp - user_exp
    if diff < 0 then 0.3
    else if diff = 1 then 1.0
    else if diff = 2 then 0.9
    else if diff = 3 then 0.6
    else 0.4
  else
    let diff := user_exp - target_exp
    if diff < 0 then 0.3
    else if diff = 1 then 1.0
    else if diff = 2 then 0.9
    else if diff = 3 then 0.6
    else 0.4

/-- Weight of the semantic component (matcher.py:43). -/
def weight_semantic_similarity : ℝ := 0.40

/-- Weight of the complementarity component (matcher.py:44). -/
def weight_skill_complementarity : ℝ := 0.25

/-- Weight of the experience component (matcher.py:45). -/
def weight_experience_match : ℝ := 0.20

/-- Weight of the diversity component (matcher.py:46). -/
def weight_skill_diversity : ℝ := 0.15

/-- The fixed-weight linear combination of matcher.py:268-273. -/
noncomputable def combineScores (semantic : ℝ)
    (complementarity experience diversity : ℚ) : ℝ :=
  weight_semantic_similarity * semantic +
  weight_skill_complementarity * (complementarity : ℝ) +
  weight_experience_match * (experience : ℝ) +
  weight_skill_diversity * (diversity : ℝ)

/-- The score dictionary returned by `compute_match_score`. -/
structure MatchScores where
  total : ℝ
  semantic_similarity : ℝ
  skill_complementarity : ℚ
  experience_match : ℚ
  skill_diversity : ℚ

/-- Comprehensive match score, `compute_match_score` at matcher.py:232-281. -/
noncomputable def compute_match_score (m : Matcher)
    (user_skills target_skills : List String)
    (user_experience target_experience role : String) : MatchScores :=
  let user_embedding := encode_skills m user_skills
  let target_embedding := encode_skills m target_skills
  let semantic_score := compute_semantic_similarity user_embedding target_embedding
  let complementarity_score := compute_skill_complementarity user_skills target_skills
  let experience_score := compute_experience_match user_experience target_experience role
  let diversity_score := compute_skill_diversity user_skills target_skills
  { total := combineScores semantic_score complementarity_score experience_score diversity_score
    semantic_similarity := semantic_score
    skill_complementarity := complementarity_score
    experience_match := experience_score
    skill_diversity := diversity_score }

/-- Spec-side rank table, written from the words of the claim (beginner=1,
junior=2, intermediate=3, senior=4, expert=5, advanced=5, unknown or
empty=3, case-insensitively), for comparison with `experienceRank`. -/
def specExperienceRank (label : String) : ℚ :=
  if (pyLower label) = "beginner" then 1
  else if (pyLower label) = "junior" then 2
  else if (pyLower label) = "intermediate" then 3
  else if (pyLower label) = "senior" then 4
  else if (pyLower label) = "expert" then 5
  else if (pyLower label) = "advanced" then 5
  else 3

/-- Spec-side bucket table, written from the words of the claim
(diff<0 → 0.3, diff=1 → 1.0, diff=2 → 0.9, diff=3 → 0.6, otherwise 0.4),
for comparison with `compute_experience_match`. -/
def specExperienceBucket (diff : ℚ) : ℚ :=
  if diff < 0 then 0.3
  else if diff = 1 then 1.0
  else if diff = 2 then 0.9
  else if diff = 3 then 0.6
  else 0.4

theorem experienceRank_eq_spec (s : String) : experienceRank s = specExperienceRank s := by
  unfold experienceRank specExperienceRank experience_map
  by_cases h1 : (pyLower s) = "beginner"
  · rw [h1]; decide
  by_cases h2 : (pyLower s) = "junior"
  · rw [h2]; decide
  by_cases h3 : (pyLower s) = "intermediate"
  · rw [h3]; decide
  by_cases h4 : (pyLower s) = "senior"
  · rw [h4]; decide
  by_cases h5 : (pyLower s) = "expert"
  · rw [h5]; decide
  by_cases h6 : (pyLower s) = "advanced"
  · rw [h6]; decide
  by_cases h7 : (pyLower s) = ""
  · rw [h7]; decide
  · have b1 : ((pyLower s) == "beginner") = false := beq_eq_false_iff_ne.mpr h1
    have b2 : ((pyLower s) == "junior") = false := beq_eq_false_iff_ne.mpr h2
    have b3 : ((pyLower s) == "intermediate") = false := beq_eq_false_iff_ne.mpr h3
    have b4 : ((pyLower s) == "senior") = false := beq_eq_false_iff_ne.mpr h4
    have b5 : ((pyLower s) == "expert") = false := beq_eq_false_iff_ne.mpr h5
    have b6 : ((pyLower s) == "advanced") = false := beq_eq_false_iff_ne.mpr h6
    have b7 : ((pyLower s) == "") = false := beq_eq_false_iff_ne.mpr h7
    simp [List.lookup, b1, b2, b3, b4, b5, b6, b7, h1, h2, h3, h4, h5, h6, h7]

/-- C1: for any two experience labels, with role "mentee" (the requester is
mentee-seeking) `compute_experience_match` maps both labels
case-insensitively through the rank table beginner=1, junior=2,
intermediate=3, senior=4, expert=5, advanced=5, unknown/empty=3, and buckets
`diff = candidateRank - requesterRank` as 0.3 for diff<0, 1.0 for diff=1,
0.9 for diff=2, 0.6 for diff=3 and 0.4 otherwise; with role "mentor"
(mentor-seeking) the identical bucket table is applied to
`diff = requesterRank - candidateRank`. -/
theorem compute_experience_match_spec_table (u t : String) :
    compute_experience_match u t "mentee" =
      specExperienceBucket (specExperienceRank t - specExperienceRank u) ∧
    compute_experience_match u t "mentor" =
      specExperienceBucket (specExperienceRank u - specExperienceRank t) := by
  constructor <;>
    simp [compute_experience_match, experienceRank_eq_spec, specExperienceBucket]

/-- C4 counterexample: the claim asserts complementarity 1 whenever the two
sets share no skills and the candidate set is non-empty, but for an EMPTY
requester list (which shares no skills with anything) the code returns 0,
not 1.  The two clauses of the claim contradict each other at
A = [], B = ["python"]. -/
theorem skill_complementarity_claim_cex :
    ¬ (∀ A B : List String,
        ((A = [] ∨ B = []) → compute_skill_complementarity A B = 0) ∧
        ((lowerSet A ∩ lowerSet B = ∅ ∧ B ≠ []) →
          compute_skill_complementarity A B = 1)) := by
  intro h
  have h0 := (h [] ["python"]).1 (Or.inl rfl)
  have h1 := (h [] ["python"]).2 (by refine ⟨by decide, by decide⟩)
  rw [h0] at h1
  norm_num at h1

/-- C4 (amended): complementarity is 0 whenever either skill list is empty,
and is 1 whenever BOTH lists are non-empty and the case-folded sets share no
skill. -/
theorem skill_complementarity_boundary (A B : List String) :
    ((A = [] ∨ B = []) → compute_skill_complementarity A B = 0) ∧
    ((A ≠ [] ∧ B ≠ [] ∧ lowerSet A ∩ lowerSet B = ∅) →
      compute_skill_complementarity A B = 1) := by
  constructor
  · intro h
    simp [compute_skill_complementarity, h]
  · rintro ⟨hA, hB, hdisj⟩
    have hne : ¬ (A = [] ∨ B = []) := by
      rintro (h | h)
      · exact hA h
      · exact hB h
    have hsd : lowerSet B \ lowerSet A = lowerSet B := by
      rw [Finset.sdiff_eq_self_iff_disjoint, Finset.disjoint_iff_inter_eq_empty,
        Finset.inter_comm]
      exact hdisj
    have hcard : ((lowerSet B).card : ℚ) ≠ 0 := by
      have : lowerSet B ≠ ∅ := by
        simp only [lowerSet, ne_eq, List.toFinset_eq_empty_iff, List.map_eq_nil_iff]
        exact hB
      exact Nat.cast_ne_zero.mpr (Finset.card_ne_zero.mpr
        (Finset.nonempty_iff_ne_empty.mpr this))
    simp only [compute_skill_complementarity, if_neg hne, hsd]
    exact div_self hcard

theorem skill_complementarity_boundary_witness :
    compute_skill_complementarity ["a"] ["b"] = 1 ∧
    compute_skill_complementarity [] ["b"] = 0 :=
  ⟨(skill_complementarity_boundary ["a"] ["b"]).2 ⟨by decide, by decide, by decide⟩,
   (skill_complementarity_boundary [] ["b"]).1 (Or.inl rfl)⟩

/-- The overlap ratio of the two case-folded skill sets:
`len(overlap) / total_unique` at matcher.py:152-153. -/
def overlapRatio (A B : List String) : ℚ :=
  ((lowerSet A ∩ lowerSet B).card : ℚ) / (((lowerSet A ∪ lowerSet B).card : ℚ))

/-- C5: diversity is 0 exactly when the case-folded intersection is empty
(including when either list is empty); otherwise it equals
`max 0 (1 - |0.3 - overlapRatio| / 0.7)`, and it attains the maximum 1.0
exactly when the overlap ratio is 0.3. -/
theorem skill_diversity_zero_and_peak (A B : List String) :
    (lowerSet A ∩ lowerSet B = ∅ → compute_skill_diversity A B = 0) ∧
    (lowerSet A ∩ lowerSet B ≠ ∅ →
      compute_skill_diversity A B = max 0 (1 - |0.3 - overlapRatio A B| / 0.7) ∧
      (compute_skill_diversity A B = 1 ↔ overlapRatio A B = 0.3)) := by
  constructor
  · intro h
    by_cases hAB : A = [] ∨ B = []
    · simp [compute_skill_diversity, hAB]
    · simp [compute_skill_diversity, hAB, h]
  · intro h
    have hA : A ≠ [] := by
      intro hA
      exact h (by simp [lowerSet, hA])
    have hB : B ≠ [] := by
      intro hB
      exact h (by simp [lowerSet, hB])
    have hAB : ¬ (A = [] ∨ B = []) := by
      rintro (hc | hc)
      · exact hA hc
      · exact hB hc
    have hdiv : compute_skill_diversity A B =
        max 0 (1 - |0.3 - overlapRatio A B| / 0.7) := by
      simp only [compute_skill_diversity, if_neg hAB, if_neg h, overlapRatio]
    refine ⟨hdiv, ?_⟩
    rw [hdiv]
    constructor
    · intro h1
      rcases max_choice (0 : ℚ) (1 - |0.3 - overlapRatio A B| / 0.7) with hc | hc
      · rw [hc] at h1
        norm_num at h1
      · rw [hc] at h1
        have h2 : |0.3 - overlapRatio A B| / 0.7 = 0 := by linarith
        have h3 : |0.3 - overlapRatio A B| = 0 := by
          rw [div_eq_zero_iff] at h2
          rcases h2 with h2 | h2
          · exact h2
          · norm_num at h2
        have h4 := abs_eq_zero.mp h3
        linarith
    · intro h1
      rw [h1]
      norm_num

theorem skill_diversity_zero_and_peak_witness :
    compute_skill_diversity ["a", "b", "c", "d", "e", "f", "g"]
      ["a", "b", "c", "x", "y", "z"] = 1 := by
  have hratio : overlapRatio ["a", "b", "c", "d", "e", "f", "g"]
      ["a", "b", "c", "x", "y", "z"] = 0.3 := by
    have hc1 : (lowerSet ["a", "b", "c", "d", "e", "f", "g"] ∩
        lowerSet ["a", "b", "c", "x", "y", "z"]).card = 3 := by decide
    have hc2 : (lowerSet ["a", "b", "c", "d", "e", "f", "g"] ∪
        lowerSet ["a", "b", "c", "x", "y", "z"]).card = 10 := by decide
    rw [overlapRatio, hc1, hc2]
    norm_num
  exact ((skill_diversity_zero_and_peak ["a", "b", "c", "d", "e", "f", "g"]
      ["a", "b", "c", "x", "y", "z"]).2 (by decide)).2.mpr hratio

theorem dotQ_nil_left (b : List ℚ) : dotQ [] b = 0 := by
  simp [dotQ]

theorem dotQ_nil_right (a : List ℚ) : dotQ a [] = 0 := by
  simp [dotQ]

theorem dotQ_cons (x y : ℚ) (a b : List ℚ) :
    dotQ (x :: a) (y :: b) = x * y + dotQ a b := by
  simp [dotQ]

theorem dotQ_comm (a b : List ℚ) : dotQ a b = dotQ b a := by
  induction a generalizing b with
  | nil => cases b <;> simp [dotQ]
  | cons x xs ih =>
    cases b with
    | nil => simp [dotQ]
    | cons y ys => rw [dotQ_cons, dotQ_cons, ih, mul_comm]

theorem dotQ_self_nonneg (a : List ℚ) : 0 ≤ dotQ a a := by
  induction a with
  | nil => simp [dotQ]
  | cons x xs ih =>
    rw [dotQ_cons]
    nlinarith [mul_self_nonneg x]

/-- Cauchy-Schwarz for the truncating dot product on rational vectors. -/
theorem dotQ_sq_le (a b : List ℚ) : dotQ a b ^ 2 ≤ dotQ a a * dotQ b b := by
  induction a generalizing b with
  | nil =>
    simp [dotQ]
  | cons x xs ih =>
    cases b with
    | nil =>
      simp [dotQ]
    | cons y ys =>
      have h := ih ys
      have hA := dotQ_self_nonneg xs
      have hB := dotQ_self_nonneg ys
      rw [dotQ_cons, dotQ_cons, dotQ_cons]
      have hu : (0 : ℚ) ≤ x ^ 2 * dotQ ys ys + dotQ xs xs * y ^ 2 := by
        have := mul_nonneg (sq_nonneg x) hB
        have := mul_nonneg hA (sq_nonneg y)
        linarith
      have hsq : (2 * x * y * dotQ xs ys) ^ 2 ≤
          (x ^ 2 * dotQ ys ys + dotQ xs xs * y ^ 2) ^ 2 := by
        nlinarith [sq_nonneg (x ^ 2 * dotQ ys ys - dotQ xs xs * y ^ 2),
          mul_nonneg (mul_nonneg (sq_nonneg x) (sq_nonneg y)) (sub_nonneg.mpr h)]
      have hle : 2 * x * y * dotQ xs ys ≤
          x ^ 2 * dotQ ys ys + dotQ xs xs * y ^ 2 := by
        nlinarith [hsq, hu]
      nlinarith [hle, h]

theorem dotQ_eq_zero_left (a b : List ℚ) (h : dotQ a a = 0) : dotQ a b = 0 := by
  have h1 := dotQ_sq_le a b
  rw [h, zero_mul] at h1
  have h2 := sq_nonneg (dotQ a b)
  exact pow_eq_zero_iff two_ne_zero |>.mp (le_antisymm h1 h2)

theorem cosine_similarity_abs_le (a b : List ℚ) : |cosine_similarity a b| ≤ 1 := by
  unfold cosine_similarity
  by_cases hA : dotQ a a = 0
  · rw [dotQ_eq_zero_left a b hA]
    simp
  by_cases hB : dotQ b b = 0
  · rw [dotQ_comm, dotQ_eq_zero_left b a hB]
    simp
  rw [if_neg hA, if_neg hB]
  have hA0 : (0 : ℝ) < ((dotQ a a : ℚ) : ℝ) := by
    have := dotQ_self_nonneg a
    have h1 : (0 : ℝ) ≤ ((dotQ a a : ℚ) : ℝ) := by exact_mod_cast this
    have h2 : ((dotQ a a : ℚ) : ℝ) ≠ 0 := by exact_mod_cast hA
    exact lt_of_le_of_ne h1 (Ne.symm h2)
  have hB0 : (0 : ℝ) < ((dotQ b b : ℚ) : ℝ) := by
    have := dotQ_self_nonneg b
    have h1 : (0 : ℝ) ≤ ((dotQ b b : ℚ) : ℝ) := by exact_mod_cast this
    have h2 : ((dotQ b b : ℚ) : ℝ) ≠ 0 := by exact_mod_cast hB
    exact lt_of_le_of_ne h1 (Ne.symm h2)
  have hden : (0 : ℝ) < Real.sqrt ((dotQ a a : ℚ) : ℝ) * Real.sqrt ((dotQ b b : ℚ) : ℝ) :=
    mul_pos (Real.sqrt_pos.mpr hA0) (Real.sqrt_pos.mpr hB0)
  rw [abs_div, abs_of_pos hden, div_le_one hden]
  have hmul : Real.sqrt ((dotQ a a : ℚ) : ℝ) * Real.sqrt ((dotQ b b : ℚ) : ℝ) =
      Real.sqrt (((dotQ a a : ℚ) : ℝ) * ((dotQ b b : ℚ) : ℝ)) :=
    (Real.sqrt_mul (le_of_lt hA0) _).symm
  rw [hmul]
  have hcs : ((dotQ a b : ℚ) : ℝ) ^ 2 ≤ ((dotQ a a : ℚ) : ℝ) * ((dotQ b b : ℚ) : ℝ) := by
    exact_mod_cast dotQ_sq_le a b
  calc |((dotQ a b : ℚ) : ℝ)| = Real.sqrt (((dotQ a b : ℚ) : ℝ) ^ 2) :=
        (Real.sqrt_sq_eq_abs _).symm
    _ ≤ Real.sqrt (((dotQ a a : ℚ) : ℝ) * ((dotQ b b : ℚ) : ℝ)) :=
        Real.sqrt_le_sqrt hcs

theorem compute_semantic_similarity_mem_Icc (a b : List ℚ) :
    compute_semantic_similarity a b ∈ Set.Icc (0 : ℝ) 1 := by
  unfold compute_semantic_similarity
  split
  · simp
  · have h := abs_le.mp (cosine_similarity_abs_le a b)
    simp only [Set.mem_Icc]
    constructor
    · linarith [h.1]
    · linarith [h.2]

/-- C6: `compute_semantic_similarity` returns 0.0 whenever the two embedding
dimensions differ (never raising), otherwise `(cos + 1) / 2` for the cosine
similarity `cos`; and on any two encoded skill lists its value lies in
[0, 1]. -/
theorem semantic_similarity_range_and_mismatch :
    (∀ a b : List ℚ, a.length ≠ b.length → compute_semantic_similarity a b = 0) ∧
    (∀ a b : List ℚ, a.length = b.length →
      compute_semantic_similarity a b = (cosine_similarity a b + 1) / 2) ∧
    (∀ (m : Matcher) (s1 s2 : List String),
      compute_semantic_similarity (encode_skills m s1) (encode_skills m s2) ∈
        Set.Icc (0 : ℝ) 1) := by
  refine ⟨?_, ?_, ?_⟩
  · intro a b h
    simp [compute_semantic_similarity, h]
  · intro a b h
    simp [compute_semantic_similarity, h]
  · intro m s1 s2
    exact compute_semantic_similarity_mem_Icc _ _

theorem semantic_similarity_range_and_mismatch_witness :
    compute_semantic_similarity [(1 : ℚ)] [(1 : ℚ), 2] = 0 ∧
    compute_semantic_similarity (encode_skills ⟨none, fun _ => 3⟩ ["a"])
      (encode_skills ⟨none, fun _ => 3⟩ []) ∈ Set.Icc (0 : ℝ) 1 :=
  ⟨semantic_similarity_range_and_mismatch.1 [(1 : ℚ)] [(1 : ℚ), 2] (by decide),
   semantic_similarity_range_and_mismatch.2.2 ⟨none, fun _ => 3⟩ ["a"] []⟩

/-- C7: the total of `compute_match_score` is the fixed-weight combination
0.40·semantic + 0.25·complementarity + 0.20·experience + 0.15·diversity of
its own component scores; the four weights sum to 1.0; the combination is
monotone non-decreasing in each component with the other three fixed; and it
lies in [0, 1] whenever every component lies in [0, 1]. -/
theorem match_score_weighted_combination :
    (∀ (m : Matcher) (us ts : List String) (ue te role : String),
      (compute_match_score m us ts ue te role).total =
        weight_semantic_similarity *
            (compute_match_score m us ts ue te role).semantic_similarity +
          weight_skill_complementarity *
            ((compute_match_score m us ts ue te role).skill_complementarity : ℝ) +
          weight_experience_match *
            ((compute_match_score m us ts ue te role).experience_match : ℝ) +
          weight_skill_diversity *
            ((compute_match_score m us ts ue te role).skill_diversity : ℝ)) ∧
    weight_semantic_similarity + weight_skill_complementarity +
      weight_experience_match + weight_skill_diversity = 1 ∧
    (∀ (s1 s2 : ℝ) (c e d : ℚ), s1 ≤ s2 →
      combineScores s1 c e d ≤ combineScores s2 c e d) ∧
    (∀ (s : ℝ) (c1 c2 e d : ℚ), c1 ≤ c2 →
      combineScores s c1 e d ≤ combineScores s c2 e d) ∧
    (∀ (s : ℝ) (c e1 e2 d : ℚ), e1 ≤ e2 →
      combineScores s c e1 d ≤ combineScores s c e2 d) ∧
    (∀ (s : ℝ) (c e d1 d2 : ℚ), d1 ≤ d2 →
      combineScores s c e d1 ≤ combineScores s c e d2) ∧
    (∀ (s : ℝ) (c e d : ℚ), 0 ≤ s → s ≤ 1 → 0 ≤ c → c ≤ 1 → 0 ≤ e → e ≤ 1 →
      0 ≤ d → d ≤ 1 → combineScores s c e d ∈ Set.Icc (0 : ℝ) 1) := by
  refine ⟨fun m us ts ue te role => rfl, by
    simp only [weight_semantic_similarity, weight_skill_complementarity,
      weight_experience_match, weight_skill_diversity]
    norm_num, ?_, ?_, ?_, ?_, ?_⟩
  · intro s1 s2 c e d h
    simp only [combineScores, weight_semantic_similarity, weight_skill_complementarity,
      weight_experience_match, weight_skill_diversity]
    norm_num
    linarith
  · intro s c1 c2 e d h
    have h2 : (c1 : ℝ) ≤ (c2 : ℝ) := by exact_mod_cast h
    simp only [combineScores, weight_semantic_similarity, weight_skill_complementarity,
      weight_experience_match, weight_skill_diversity]
    norm_num
    linarith
  · intro s c e1 e2 d h
    have h2 : (e1 : ℝ) ≤ (e2 : ℝ) := by exact_mod_cast h
    simp only [combineScores, weight_semantic_similarity, weight_skill_complementarity,
      weight_experience_match, weight_skill_diversity]
    norm_num
    linarith
  · intro s c e d1 d2 h
    have h2 : (d1 : ℝ) ≤ (d2 : ℝ) := by exact_mod_cast h
    simp only [combineScores, weight_semantic_similarity, weight_skill_complementarity,
      weight_experience_match, weight_skill_diversity]
    norm_num
    linarith
  · intro s c e d hs0 hs1 hc0 hc1 he0 he1 hd0 hd1
    have hc0r : (0 : ℝ) ≤ (c : ℝ) := by exact_mod_cast hc0
    have hc1r : (c : ℝ) ≤ 1 := by exact_mod_cast hc1
    have he0r : (0 : ℝ) ≤ (e : ℝ) := by exact_mod_cast he0
    have he1r : (e : ℝ) ≤ 1 := by exact_mod_cast he1
    have hd0r : (0 : ℝ) ≤ (d : ℝ) := by exact_mod_cast hd0
    have hd1r : (d : ℝ) ≤ 1 := by exact_mod_cast hd1
    simp only [combineScores, weight_semantic_similarity, weight_skill_complementarity,
      weight_experience_match, weight_skill_diversity, Set.mem_Icc]
    norm_num
    constructor <;> linarith

theorem match_score_weighted_combination_witness :
    combineScores 0 1 1 1 ≤ combineScores 1 1 1 1 ∧
    combineScores 1 1 1 1 ∈ Set.Icc (0 : ℝ) 1 :=
  ⟨match_score_weighted_combination.2.2.1 0 1 1 1 1 (by norm_num),
   match_score_weighted_combination.2.2.2.2.2.2 1 1 1 1 (by norm_num) (by norm_num)
     (by norm_num) (by norm_num) (by norm_num) (by norm_num) (by norm_num) (by norm_num)⟩

/-- Stable insertion of one element into a list sorted by descending key: the
inserted element (which came later in the input) goes after every element
with an equal or larger key. -/
noncomputable def insertDescBy {α : Type} (key : α → ℝ) (x : α) : List α → List α
  | [] => [x]
  | y :: l => if key x < key y then y :: insertDescBy key x l else x :: y :: l

/-- Stable descending sort by a real-valued key: the model of Python
`list.sort(key=..., reverse=True)` as used at match.py:148 and
matcher.py:308. -/
noncomputable def sortDescBy {α : Type} (key : α → ℝ) : List α → List α
  | [] => []
  | x :: l => insertDescBy key x (sortDescBy key l)

/-- The factor list of `generate_explanation` (matcher.py:299-307): each
component score paired with its fixed human-readable phrase, in the
insertion order of the `components` dict. -/
noncomputable def factorScores (scores : MatchScores) : List (String × ℝ) :=
  [("strong skill alignment", scores.semantic_similarity),
   ("complementary skill sets", (scores.skill_complementarity : ℝ)),
   ("compatible experience levels", (scores.experience_match : ℝ)),
   ("diverse skill overlap", (scores.skill_diversity : ℝ))]

/-- The top two factors, kept only while above 0.5 (matcher.py:306-310). -/
noncomputable def topFactors (scores : MatchScores) : List String :=
  (((sortDescBy (fun p => p.2) (factorScores scores)).take 2).filter
    (fun p => decide (0.5 < p.2))).map (fun p => p.1)

/-- The case-folded overlap of the two skill lists (matcher.py:313-315) as a
list.  Python enumerates the overlap set in unspecified order; the model
fixes the first-occurrence order of the lowered requester list.  No theorem
below depends on the enumeration order. -/
def overlapFold (user_skills target_skills : List String) : List String :=
  ((user_skills.map pyLower).dedup).filter
    (fun s => (target_skills.map pyLower).contains s)

/-- Round half to even to an integer: the rounding used by Python `round`
and by the `%` format specifier. -/
noncomputable def pyRoundHalfEvenInt (x : ℝ) : ℤ :=
  if x - Int.floor x < 1 / 2 then Int.floor x
  else if 1 / 2 < x - Int.floor x then Int.floor x + 1
  else if Even (Int.floor x) then Int.floor x else Int.floor x + 1

/-- Python `round(x, ndigits)` on a real value. -/
noncomputable def pyRound (x : ℝ) (ndigits : ℕ) : ℝ :=
  ((pyRoundHalfEvenInt (x * 10 ^ ndigits) : ℤ) : ℝ) / 10 ^ ndigits

/-- Python format `{x:.0%}`: the value times 100 rounded to an integer, with
a percent sign appended. -/
noncomputable def formatPercent0 (x : ℝ) : String :=
  toString (pyRoundHalfEvenInt (x * 100)) ++ "%"

/-- Explanation string, `generate_explanation` at matcher.py:283-330. -/
noncomputable def generate_explanation (scores : MatchScores)
    (user_skills target_skills : List String) : String :=
  let top_factors := topFactors scores
  let overlap := overlapFold user_skills target_skills
  let explanation := "Match confidence: " ++ formatPercent0 scores.total
  let explanation :=
    if top_factors = [] then explanation
    else explanation ++ " (based on " ++ String.intercalate ", " top_factors ++ ")"
  if overlap = [] then explanation
  else
    explanation ++ ". Shared interests: " ++
      (String.intercalate ", " (overlap.take 3) ++
        (if 3 < overlap.length then
          " and " ++ toString (overlap.length - 3) ++ " more"
        else ""))

/-- C9 counterexample: the explanation lists the case-folded (lowercased)
shared skill names, not names in their original casing: for requester skills
["Python"] and candidate skills ["Python", "SQL"] the case-folded
intersection is non-empty and the one listed shared skill is "python", a
string that occurs in neither original list. -/
theorem generate_explanation_casing_cex :
    overlapFold ["Python"] ["Python", "SQL"] = ["python"] ∧
    "python" ∉ (["Python"] : List String) ∧
    "python" ∉ (["Python", "SQL"] : List String) ∧
    (∃ head : String,
      generate_explanation
          { total := 0.6, semantic_similarity := 1, skill_complementarity := 0,
            experience_match := 1, skill_diversity := 0 }
          ["Python"] ["Python", "SQL"] =
        head ++ ". Shared interests: " ++ "python") := by
  refine ⟨by decide, by decide, by decide, ?_⟩
  have h : overlapFold ["Python"] ["Python", "SQL"] ≠ [] := by decide
  simp only [generate_explanation]
  rw [if_neg h]
  exact ⟨_, rfl⟩

/-- C9 (amended): when the case-folded intersection of requester and
candidate skills is non-empty, the explanation ends with a shared-interests
clause listing the first min(3, n) shared skill names in their CASE-FOLDED
(lowercased) form — not the original casing — followed by an " and N more"
suffix exactly when more than 3 shared names exist; the listed names are
distinct, exactly min(3, n) of them are listed, and each belongs to both
case-folded lists. -/
theorem generate_explanation_shared_interests (scores : MatchScores)
    (A B : List String) :
    (overlapFold A B ≠ [] → ∃ head : String,
      generate_explanation scores A B =
        head ++ ". Shared interests: " ++
          (String.intercalate ", " ((overlapFold A B).take 3) ++
            (if 3 < (overlapFold A B).length then
              " and " ++ toString ((overlapFold A B).length - 3) ++ " more"
            else ""))) ∧
    ((overlapFold A B).take 3).length = min 3 (overlapFold A B).length ∧
    ((overlapFold A B).take 3).Nodup ∧
    (∀ x ∈ (overlapFold A B).take 3, x ∈ A.map pyLower ∧ x ∈ B.map pyLower) := by
  refine ⟨?_, ?_, ?_, ?_⟩
  · intro h
    simp only [generate_explanation]
    rw [if_neg h]
    exact ⟨_, rfl⟩
  · simp [List.length_take]
  · exact List.Nodup.sublist (List.take_sublist 3 _)
      (List.Nodup.filter _ (List.nodup_dedup _))
  · intro x hx
    have hx2 := List.mem_of_mem_take hx
    simp only [overlapFold, List.mem_filter, List.mem_dedup] at hx2
    refine ⟨hx2.1, ?_⟩
    have h3 := hx2.2
    simpa [List.contains, List.elem_iff] using h3

theorem mem_insertDescBy {α : Type} (key : α → ℝ) (x : α) (l : List α) (z : α) :
    z ∈ insertDescBy key x l ↔ z = x ∨ z ∈ l := by
  induction l with
  | nil => simp [insertDescBy]
  | cons y l ih =>
    by_cases h : key x < key y
    · simp only [insertDescBy, if_pos h, List.mem_cons, ih]
      tauto
    · simp only [insertDescBy, if_neg h, List.mem_cons]

theorem mem_sortDescBy {α : Type} (key : α → ℝ) (l : List α) (z : α) :
    z ∈ sortDescBy key l ↔ z ∈ l := by
  induction l with
  | nil => simp [sortDescBy]
  | cons x l ih =>
    simp only [sortDescBy, mem_insertDescBy, ih, List.mem_cons]

theorem pairwise_insertDescBy {α : Type} (key : α → ℝ) (x : α) (l : List α)
    (h : List.Pairwise (fun a b => key b ≤ key a) l) :
    List.Pairwise (fun a b => key b ≤ key a) (insertDescBy key x l) := by
  induction l with
  | nil => simp [insertDescBy]
  | cons y l ih =>
    rcases List.pairwise_cons.mp h with ⟨hy, hl⟩
    by_cases hxy : key x < key y
    · simp only [insertDescBy, if_pos hxy]
      refine List.pairwise_cons.mpr ⟨?_, ih hl⟩
      intro z hz
      rcases (mem_insertDescBy key x l z).mp hz with rfl | hz2
      · exact le_of_lt hxy
      · exact hy z hz2
    · simp only [insertDescBy, if_neg hxy]
      refine List.pairwise_cons.mpr ⟨?_, h⟩
      intro z hz
      rcases List.mem_cons.mp hz with rfl | hz2
      · exact le_of_not_lt hxy
      · exact le_trans (hy z hz2) (le_of_not_lt hxy)

theorem pairwise_sortDescBy {α : Type} (key : α → ℝ) (l : List α) :
    List.Pairwise (fun a b => key b ≤ key a) (sortDescBy key l) := by
  induction l with
  | nil => simp [sortDescBy]
  | cons x l ih => exact pairwise_insertDescBy key x _ ih

theorem filter_insertDescBy {α : Type} (key : α → ℝ) (s : ℝ) (x : α) (l : List α) :
    (insertDescBy key x l).filter (fun z => decide (key z = s)) =
      (x :: l).filter (fun z => decide (key z = s)) := by
  induction l with
  | nil => rfl
  | cons y l ih =>
    by_cases hxy : key x < key y
    · simp only [insertDescBy, if_pos hxy]
      by_cases hx : key x = s
      · have hy : ¬ (key y = s) := by
          intro hy
          rw [hx, hy] at hxy
          exact lt_irrefl s hxy
        simp only [List.filter_cons, ih]
        simp [hx, hy]
      · simp only [List.filter_cons, ih]
        simp [hx]
    · simp only [insertDescBy, if_neg hxy]

theorem filter_sortDescBy {α : Type} (key : α → ℝ) (s : ℝ) (l : List α) :
    (sortDescBy key l).filter (fun z => decide (key z = s)) =
      l.filter (fun z => decide (key z = s)) := by
  induction l with
  | nil => rfl
  | cons x l ih =>
    simp only [sortDescBy]
    rw [filter_insertDescBy]
    simp only [List.filter_cons, ih]

/-- One candidate row as the scoring loop of match.py consumes it: identity
fields, experience label, resolved skill names, and an abstract fault flag.
`broken` models PerCandidateFailure — an unexpected runtime error raised
while scoring this one candidate (for example a malformed record) — which
the try/except at match.py:114-146 catches and logs, emitting no entry. -/
structure Candidate where
  username : String
  name : String
  role : String
  experience_level : String
  skills : List String
  broken : Bool

/-- One emitted match dict (match.py:130-143).  `score` is the 4-decimal
rounded total and the breakdown fields are the 3-decimal rounded component
scores, as the route serializes them; `scores` additionally keeps the raw
`MatchScores` record for specification purposes. -/
structure MatchEntry where
  username : String
  name : String
  role : String
  skills : List String
  score : ℝ
  explanation : String
  breakdown_semantic : ℝ
  breakdown_complementarity : ℝ
  breakdown_experience : ℝ
  breakdown_diversity : ℝ
  scores : MatchScores

/-- The body of the scoring loop at match.py:109-146 for one candidate: skip
an empty skill list, drop a candidate whose scoring raises, and emit an
entry only when the total exceeds the 0.2 threshold. -/
noncomputable def scoreEntry (m : Matcher) (user_skill_names : List String)
    (user_experience role : String) (target : Candidate) : Option MatchEntry :=
  if target.skills = [] then none
  else if target.broken then none
  else
    let scores := compute_match_score m user_skill_names target.skills
      user_experience target.experience_level role
    if 0.2 < scores.total then
      some
        { username := target.username
          name := target.name
          role := target.role
          skills := target.skills
          score := pyRound scores.total 4
          explanation := generate_explanation scores user_skill_names target.skills
          breakdown_semantic := pyRound scores.semantic_similarity 3
          breakdown_complementarity := pyRound (scores.skill_complementarity : ℝ) 3
          breakdown_experience := pyRound (scores.experience_match : ℝ) 3
          breakdown_diversity := pyRound (scores.skill_diversity : ℝ) 3
          scores := scores }
    else none

/-- The match list before sorting: the loop of match.py:94-146 in pool
order, behind the guard of match.py:83-85 (a requester without skills gets
an empty result). -/
noncomputable def candidateEntries (m : Matcher) (user_skill_names : List String)
    (user_experience role : String) (targets : List Candidate) : List MatchEntry :=
  if user_skill_names = [] then []
  else targets.filterMap (scoreEntry m user_skill_names user_experience role)

/-- The ranking endpoint body, `find_matches` at match.py:29-155, reduced to
the scoring engine: score the pool in order and sort descending by the
rounded total, match.py:148
(`matches.sort(key=lambda x: x["score"], reverse=True)`). -/
noncomputable def find_matches (m : Matcher) (user_skill_names : List String)
    (user_experience role : String) (targets : List Candidate) : List MatchEntry :=
  sortDescBy (fun e => e.score)
    (candidateEntries m user_skill_names user_experience role targets)

/-- C2: the result sequence of `find_matches` is sorted in descending order
of the result score (the total of each returned MatchResult), and the sort
is stable: for every score value, the subsequence of results carrying that
score equals the subsequence produced in input pool order
(`candidateEntries`), so any two results with equal scores — in particular
any two whose raw totals are equal — appear in the order in which their
candidates appeared in the pool. -/
theorem find_matches_sorted_descending_stable (m : Matcher)
    (user_skill_names : List String) (user_experience role : String)
    (targets : List Candidate) :
    List.Pairwise (fun a b => b.score ≤ a.score)
      (find_matches m user_skill_names user_experience role targets) ∧
    (∀ s : ℝ,
      (find_matches m user_skill_names user_experience role targets).filter
          (fun e => decide (e.score = s)) =
        (candidateEntries m user_skill_names user_experience role targets).filter
          (fun e => decide (e.score = s))) :=
  ⟨pairwise_sortDescBy _ _, fun s => filter_sortDescBy _ s _⟩

theorem scoreEntry_some_inv (m : Matcher) (us : List String) (ue role : String)
    (c : Candidate) (e : MatchEntry)
    (h : scoreEntry m us ue role c = some e) :
    c.skills ≠ [] ∧ c.broken = false ∧
    e.scores = compute_match_score m us c.skills ue c.experience_level role ∧
    e.skills = c.skills ∧ 0.2 < e.scores.total := by
  simp only [scoreEntry] at h
  by_cases h1 : c.skills = []
  · rw [if_pos h1] at h
    cases h
  rw [if_neg h1] at h
  by_cases h2 : c.broken = true
  · rw [if_pos h2] at h
    cases h
  rw [if_neg h2] at h
  by_cases h3 : 0.2 <
      (compute_match_score m us c.skills ue c.experience_level role).total
  · rw [if_pos h3] at h
    injection h with he
    subst he
    exact ⟨h1, by simpa using h2, rfl, rfl, h3⟩
  · rw [if_neg h3] at h
    cases h

/-- C3: every result emitted by `find_matches` has a raw combined total
strictly above the minimum-score threshold 0.2 and a non-empty candidate
skill list; a candidate with an empty skill list produces no entry; and a
candidate whose combined total is at most 0.2 produces no entry, hence is
absent from the results. -/
theorem find_matches_threshold (m : Matcher) (us : List String)
    (ue role : String) (targets : List Candidate) :
    (∀ e ∈ find_matches m us ue role targets,
      0.2 < e.scores.total ∧ e.skills ≠ []) ∧
    (∀ c : Candidate, c.skills = [] → scoreEntry m us ue role c = none) ∧
    (∀ c : Candidate,
      (compute_match_score m us c.skills ue c.experience_level role).total ≤ 0.2 →
      scoreEntry m us ue role c = none) := by
  refine ⟨?_, ?_, ?_⟩
  · intro e he
    have he2 : e ∈ candidateEntries m us ue role targets :=
      (mem_sortDescBy _ _ e).mp he
    by_cases hus : us = []
    · rw [candidateEntries, if_pos hus] at he2
      cases he2
    rw [candidateEntries, if_neg hus] at he2
    rcases List.mem_filterMap.mp he2 with ⟨c, _, hsome⟩
    rcases scoreEntry_some_inv m us ue role c e hsome with ⟨h1, _, _, h4, h5⟩
    exact ⟨h5, h4 ▸ h1⟩
  · intro c h
    simp only [scoreEntry]
    rw [if_pos h]
  · intro c h
    simp only [scoreEntry]
    by_cases h1 : c.skills = []
    · rw [if_pos h1]
    rw [if_neg h1]
    by_cases h2 : c.broken = true
    · rw [if_pos h2]
    rw [if_neg h2, if_neg (not_lt.mpr h)]

theorem scoreEntry_broken_none (m : Matcher) (us : List String)
    (ue role : String) (c : Candidate) (h : c.broken = true) :
    scoreEntry m us ue role c = none := by
  simp only [scoreEntry]
  by_cases h1 : c.skills = []
  · rw [if_pos h1]
  · rw [if_neg h1, if_pos h]

/-- C8: a candidate on which scoring raises an unexpected error (modelled by
the fault flag `broken`, which the try/except of match.py:114-146 catches)
is excluded from the results, and the remaining candidates are scored and
ranked exactly as if the faulty candidate were not in the pool; one bad
candidate never aborts the ranking.  The accompanying logging is a side
effect outside the model. -/
theorem find_matches_broken_candidate_isolated (m : Matcher) (us : List String)
    (ue role : String) (A B : List Candidate) (c : Candidate) :
    find_matches m us ue role (A ++ { c with broken := true } :: B) =
      find_matches m us ue role (A ++ B) := by
  unfold find_matches candidateEntries
  by_cases hus : us = []
  · rw [if_pos hus, if_pos hus]
  · rw [if_neg hus, if_neg hus]
    congr 1
    rw [List.filterMap_append, List.filterMap_append]
    congr 1
    rw [List.filterMap_cons,
      scoreEntry_broken_none m us ue role { c with broken := true } rfl]

theorem find_matches_broken_candidate_isolated_witness :
    find_matches ⟨none, fun _ => 3⟩ ["a"] "intermediate" "mentee"
        [⟨"u1", "n1", "mentor", "senior", ["a"], false⟩,
         { (⟨"u2", "n2", "mentor", "senior", ["a"], false⟩ : Candidate) with
            broken := true }] =
      find_matches ⟨none, fun _ => 3⟩ ["a"] "intermediate" "mentee"
        [⟨"u1", "n1", "mentor", "senior", ["a"], false⟩] :=
  find_matches_broken_candidate_isolated ⟨none, fun _ => 3⟩ ["a"] "intermediate"
    "mentee" [⟨"u1", "n1", "mentor", "senior", ["a"], false⟩] []
    ⟨"u2", "n2", "mentor", "senior", ["a"], false⟩

/-- The fallback condition of encode_skills: the backend is absent (failed
to load) or its encode call on the joined skill text raises. -/
def fallbackActive (m : Matcher) (skills : List String) : Prop :=
  m.model = none ∨
    ∃ f, m.model = some f ∧
      ∃ err, f (String.intercalate ", " skills) = Except.error err

theorem encode_skills_fallback (m : Matcher) (skills : List String)
    (h : skills ≠ []) (hfb : fallbackActive m skills) :
    encode_skills m skills = basic_encoding m skills := by
  rw [encode_skills, if_neg h]
  rcases hfb with hm | ⟨f, hm, err, herr⟩
  · rw [hm]
  · simp only [hm, herr]

theorem encode_skills_nil_length (m : Matcher) :
    (encode_skills m []).length = 384 := by
  rw [encode_skills, if_pos rfl]
  exact List.length_replicate 384 0

theorem basic_encoding_length (m : Matcher) (skills : List String) :
    (basic_encoding m skills).length = min skills.length 10 := by
  rw [basic_encoding]
  simp [List.length_take, Nat.min_comm]

/-- C10: when the backend is unavailable (model `none` or an encode call
that raises), `encode_skills` of a non-empty list returns the fallback
vector of length min(len, 10) — never the fixed dimension 384 — so the
semantic similarity between such a fallback embedding and the 384-entry zero
vector of an empty skill list is exactly 0.0 by dimension mismatch, as is
the similarity between fallback embeddings of two skill lists of different
lengths when each has at most 10 skills. -/
theorem fallback_encoding_dimension_mismatch :
    (∀ (m : Matcher) (skills : List String), skills ≠ [] →
      fallbackActive m skills →
      encode_skills m skills = basic_encoding m skills ∧
      (encode_skills m skills).length = min skills.length 10 ∧
      (encode_skills m skills).length ≠ 384) ∧
    (∀ (m : Matcher) (skills : List String), skills ≠ [] →
      fallbackActive m skills →
      compute_semantic_similarity (encode_skills m skills)
        (encode_skills m []) = 0) ∧
    (∀ (m : Matcher) (s1 s2 : List String), s1 ≠ [] → s2 ≠ [] →
      fallbackActive m s1 → fallbackActive m s2 →
      s1.length ≠ s2.length → s1.length ≤ 10 → s2.length ≤ 10 →
      compute_semantic_similarity (encode_skills m s1)
        (encode_skills m s2) = 0) := by
  have hlen : ∀ (m : Matcher) (skills : List String), skills ≠ [] →
      fallbackActive m skills →
      (encode_skills m skills).length = min skills.length 10 := by
    intro m skills h hfb
    rw [encode_skills_fallback m skills h hfb, basic_encoding_length]
  refine ⟨?_, ?_, ?_⟩
  · intro m skills h hfb
    refine ⟨encode_skills_fallback m skills h hfb, hlen m skills h hfb, ?_⟩
    rw [hlen m skills h hfb]
    have := Nat.min_le_right skills.length 10
    omega
  · intro m skills h hfb
    have h1 := hlen m skills h hfb
    have h2 := encode_skills_nil_length m
    have hne : (encode_skills m skills).length ≠ (encode_skills m []).length := by
      rw [h1, h2]
      have := Nat.min_le_right skills.length 10
      omega
    rw [compute_semantic_similarity, if_pos hne]
  · intro m s1 s2 h1 h2 hfb1 hfb2 hne hle1 hle2
    have e1 := hlen m s1 h1 hfb1
    have e2 := hlen m s2 h2 hfb2
    have hne2 : (encode_skills m s1).length ≠ (encode_skills m s2).length := by
      rw [e1, e2, Nat.min_eq_left hle1, Nat.min_eq_left hle2]
      exact hne
    rw [compute_semantic_similarity, if_pos hne2]

theorem fallback_encoding_dimension_mismatch_witness :
    compute_semantic_similarity
        (encode_skills ⟨none, fun _ => 3⟩ ["a"])
        (encode_skills ⟨none, fun _ => 3⟩ ["b", "c"]) = 0 ∧
    compute_semantic_similarity
        (encode_skills ⟨none, fun _ => 3⟩ ["a"])
        (encode_skills ⟨none, fun _ => 3⟩ []) = 0 :=
  ⟨fallback_encoding_dimension_mismatch.2.2 ⟨none, fun _ => 3⟩ ["a"] ["b", "c"]
      (by decide) (by decide) (Or.inl rfl) (Or.inl rfl) (by decide) (by decide)
      (by decide),
   fallback_encoding_dimension_mismatch.2.1 ⟨none, fun _ => 3⟩ ["a"]
      (by decide) (Or.inl rfl)⟩

theorem find_matches_threshold_witness :
    scoreEntry ⟨none, fun _ => 3⟩ ["a", "b"] "intermediate" "mentee"
      ⟨"u5", "n5", "mentor", "beginner", ["A", "a", "b"], false⟩ = none := by
  have hsem : compute_semantic_similarity
      (encode_skills ⟨none, fun _ => 3⟩ ["a", "b"])
      (encode_skills ⟨none, fun _ => 3⟩ ["A", "a", "b"]) = 0 := by
    rw [compute_semantic_similarity, if_pos (by decide)]
  have hcomp : compute_skill_complementarity ["a", "b"] ["A", "a", "b"] = 0 := by
    simp only [compute_skill_complementarity]
    rw [if_neg (by decide)]
    have h1 : (lowerSet ["A", "a", "b"] \ lowerSet ["a", "b"]).card = 0 := by decide
    rw [h1]
    norm_num
  have hexp : compute_experience_match "intermediate" "beginner" "mentee" = 0.3 := by
    have h1 : experienceRank "intermediate" = 3 := by decide
    have h2 : experienceRank "beginner" = 1 := by decide
    simp only [compute_experience_match, h1, h2]
    norm_num
  have hdiv : compute_skill_diversity ["a", "b"] ["A", "a", "b"] = 0 := by
    simp only [compute_skill_diversity]
    rw [if_neg (by decide), if_neg (by decide)]
    have h1 : (lowerSet ["a", "b"] ∩ lowerSet ["A", "a", "b"]).card = 2 := by decide
    have h2 : (lowerSet ["a", "b"] ∪ lowerSet ["A", "a", "b"]).card = 2 := by decide
    rw [h1, h2]
    have h3 : |(0.3 : ℚ) - ((2 : ℕ) : ℚ) / ((2 : ℕ) : ℚ)| = 0.7 := by
      rw [abs_sub_comm, abs_of_nonneg (by norm_num)]
      norm_num
    rw [h3]
    norm_num
  have htot : (compute_match_score ⟨none, fun _ => 3⟩ ["a", "b"] ["A", "a", "b"]
      "intermediate" "beginner" "mentee").total ≤ 0.2 := by
    have hform : (compute_match_score ⟨none, fun _ => 3⟩ ["a", "b"] ["A", "a", "b"]
        "intermediate" "beginner" "mentee").total =
        combineScores
          (compute_semantic_similarity (encode_skills ⟨none, fun _ => 3⟩ ["a", "b"])
            (encode_skills ⟨none, fun _ => 3⟩ ["A", "a", "b"]))
          (compute_skill_complementarity ["a", "b"] ["A", "a", "b"])
          (compute_experience_match "intermediate" "beginner" "mentee")
          (compute_skill_diversity ["a", "b"] ["A", "a", "b"]) := rfl
    rw [hform, hsem, hcomp, hexp, hdiv]
    simp only [combineScores, weight_semantic_similarity, weight_skill_complementarity,
      weight_experience_match, weight_skill_diversity]
    push_cast
    norm_num
  exact (find_matches_threshold ⟨none, fun _ => 3⟩ ["a", "b"] "intermediate"
    "mentee" []).2.2 ⟨"u5", "n5", "mentor", "beginner", ["A", "a", "b"], false⟩ htot

theorem generate_explanation_shared_interests_witness :
    ∃ head : String,
      generate_explanation ⟨0.6, 1, 0, 1, 0⟩ ["a", "sql"] ["SQL", "b"] =
        head ++ ". Shared interests: " ++
          (String.intercalate ", " ((overlapFold ["a", "sql"] ["SQL", "b"]).take 3) ++
            (if 3 < (overlapFold ["a", "sql"] ["SQL", "b"]).length then
              " and " ++ toString ((overlapFold ["a", "sql"] ["SQL", "b"]).length - 3)
                ++ " more"
            else "")) :=
  (generate_explanation_shared_interests ⟨0.6, 1, 0, 1, 0⟩ ["a", "sql"]
    ["SQL", "b"]).1 (by decide)
